import Mathlib

/-!
Shallow embedding of the achgateway inbound (RDFI) file-processing core:
the correction and reconciliation processors, the periodic scheduler's
`tickAll`/`tick` control flow, and the HTTP file-submission handler.
Each definition is translated from the corresponding Go source function.
-/

namespace AchGateway

/-! ### Go string primitives

ASCII model of the `strings` package functions the processors use.
`strings.ToLower` lowercases ASCII letters (the Unicode cases are not
exercised by the configuration strings involved); `strings.Contains`
is substring containment. -/

/-- ASCII lowercase of one character, as Go's `unicode.ToLower` acts on
ASCII input. -/
def goCharToLower (c : Char) : Char :=
  if 'A' ≤ c ∧ c ≤ 'Z' then Char.ofNat (c.toNat + 32) else c

/-- `strings.ToLower` on ASCII strings. -/
def stringsToLower (s : String) : String :=
  String.mk (s.data.map goCharToLower)

/-- Substring test on character lists: does `hay` have `needle` as a
contiguous sublist (at some position)? -/
def containsSub (needle : List Char) : List Char → Bool
  | [] => List.isPrefixOf needle []
  | c :: t => List.isPrefixOf needle (c :: t) || containsSub needle t

/-- `strings.Contains(s, substr)`. -/
def stringsContains (s substr : String) : Bool :=
  containsSub substr.data s.data

/-- `path/filepath.Base`: empty path gives ".", trailing slashes are
removed, the last path element is returned, an all-slash path gives "/". -/
def filepathBase (path : String) : String :=
  if path = "" then "."
  else
    let stripped := (path.data.reverse.dropWhile (fun c => c == '/')).reverse
    let last := (stripped.reverse.takeWhile (fun c => c != '/')).reverse
    if last.isEmpty then "/" else String.mk last

/-! ### Data model (`File`, parsed ACH document, configs)

`File.ACHFile` is a Go pointer that is nil when the bytes failed to
parse; it is modelled as an `Option`. An ACH batch is modelled by its
header (kept as a plain string) and entry list; an entry carries its trace number
and an optional Addenda98 record holding the change code, which is all
the processors read from it. -/

structure Addenda98 where
  changeCode : String
deriving Repr, DecidableEq

structure EntryDetail where
  traceNumber : String
  addenda98 : Option Addenda98
deriving Repr, DecidableEq

structure Batch where
  header : String
  entries : List EntryDetail
deriving Repr, DecidableEq

structure ACHFile where
  immediateOrigin : String
  immediateDestination : String
  notificationOfChange : List Batch
  batches : List Batch
deriving Repr, DecidableEq

structure File where
  filepath : String
  achFile : Option ACHFile
deriving Repr, DecidableEq

/-- `service.ODFICorrections` configuration. -/
structure ODFICorrections where
  enabled : Bool
  pathMatcher : String
deriving Repr, DecidableEq

/-- `service.ODFIReconciliation` configuration. -/
structure ODFIReconciliation where
  enabled : Bool
  pathMatcher : String
deriving Repr, DecidableEq

/-- Result of a handler: normal return without error, an error value, or
a nil-pointer dereference fault (a Go runtime panic). -/
inductive HandleOutcome where
  | ok
  | err (msg : String)
  | nilPanic
deriving Repr, DecidableEq

/-- A boolean classifier that may instead fault on a nil dereference. -/
inductive BoolOrPanic where
  | val (b : Bool)
  | nilDeref
deriving Repr, DecidableEq

/-- The case-insensitive-in-the-path filter both processors apply:
`strings.Contains(strings.ToLower(file.Filepath), cfg.PathMatcher)`. -/
def pathMatcherHit (path matcher : String) : Bool :=
  stringsContains (stringsToLower path) matcher

/-! ### corrections.go -/

/-- `isCorrectionFile` (corrections.go:62-64):
`len(file.ACHFile.NotificationOfChange) >= 0`. Reading the field of a
nil `ACHFile` pointer faults. -/
def isCorrectionFile (file : File) : BoolOrPanic :=
  match file.achFile with
  | none => .nilDeref
  | some f => .val (decide (f.notificationOfChange.length ≥ 0))

/-- One `CorrectionFile` event (`models.CorrectionFile`). -/
structure CorrectionFile where
  filename : String
  file : ACHFile
  corrections : List Batch
deriving Repr, DecidableEq

/-- Observable outcome of `correctionProcessor.Handle`: its return value,
the events sent through the emitter, and the
`correction_codes_processed{origin,destination,code}` counter increments
in order. -/
structure CorrectionOutcome where
  outcome : HandleOutcome
  events : List CorrectionFile
  counters : List (String × String × String)
deriving Repr, DecidableEq

/-- `correctionProcessor.Handle` (corrections.go:66-112). The classifier
runs first (faulting when `ACHFile` is nil), then the path-matcher skip,
then one event is built from every NotificationOfChange batch and one
counter increment is recorded per entry carrying an Addenda98 record. -/
def correctionHandle (cfg : ODFICorrections) (file : File) : CorrectionOutcome :=
  match isCorrectionFile file with
  | .nilDeref => ⟨.nilPanic, [], []⟩
  | .val false => ⟨.ok, [], []⟩
  | .val true =>
    if cfg.pathMatcher != "" && !(pathMatcherHit file.filepath cfg.pathMatcher) then
      ⟨.ok, [], []⟩
    else
      match file.achFile with
      | none => ⟨.nilPanic, [], []⟩
      | some f =>
        let corrections := f.notificationOfChange.map
          (fun b => ({ header := b.header, entries := b.entries } : Batch))
        let counters := (f.notificationOfChange.map (fun b =>
          b.entries.filterMap (fun e => e.addenda98.map (fun a =>
            (f.immediateOrigin, f.immediateDestination, a.changeCode))))).flatten
        ⟨.ok,
         [{ filename := filepathBase file.filepath, file := f,
            corrections := corrections }],
         counters⟩

/-! ### Reconciliation processor (creditReconciliation) -/

/-- `isReconciliationFile` (reconciliation source, lines 62-67): enabled
config, non-empty matcher, and the lowercased path contains the matcher. -/
def isReconciliationFile (cfg : ODFIReconciliation) (file : File) : Bool :=
  if !cfg.enabled then false
  else cfg.pathMatcher != "" && pathMatcherHit file.filepath cfg.pathMatcher

/-- One `ReconciliationFile` event (`models.ReconciliationFile`). -/
structure ReconciliationFile where
  filename : String
  file : ACHFile
  reconciliations : List Batch
deriving Repr, DecidableEq

/-- Observable outcome of `creditReconciliation.Handle`: return value,
events sent, and `credit_reconciliation_files_processed{origin,destination}`
counter increments. -/
structure ReconOutcome where
  outcome : HandleOutcome
  events : List ReconciliationFile
  counters : List (String × String)
deriving Repr, DecidableEq

/-- The per-batch step of the loop in `creditReconciliation.Handle`
(reconciliation source, lines 95-111): build a `models.Batch` from the
header and every entry of the ACH batch, and append it to the
reconciliation list only when it has entries (`len(batch.Entries) > 0`). -/
def reconsKeep (b : Batch) : Option Batch :=
  if b.entries.length > 0 then
    some { header := b.header, entries := b.entries }
  else none

/-- `creditReconciliation.Handle` (reconciliation source, lines 69-120).
A nil `ACHFile` returns the error "nil ach.File"; an unrecognized path is
skipped; otherwise the counter is incremented once, each batch keeps all
its entries, batches with no entries are dropped, and an event is sent
only when at least one batch survived (`len(recons) > 0`). -/
def creditReconciliationHandle (cfg : ODFIReconciliation) (file : File) :
    ReconOutcome :=
  match file.achFile with
  | none => ⟨.err "nil ach.File", [], []⟩
  | some f =>
    if !isReconciliationFile cfg file then ⟨.ok, [], []⟩
    else
      let counters := [(f.immediateOrigin, f.immediateDestination)]
      let recons := f.batches.filterMap reconsKeep
      let events :=
        if recons.length > 0 then
          [{ filename := filepathBase file.filepath, file := f,
             reconciliations := recons }]
        else []
      ⟨.ok, events, counters⟩

/-! ### scheduler.go: `tickAll` and the cleanup policy of `tick`

The environment of one `tickAll` run is abstracted by the functions the
loop consults: `find` (`s.sharding.Find`), `acquire`
(`consul.AcquireLock` on a leader key), and `tick` (`s.tick`, returning
its error if any). The run is recorded as a trace of the observable
events, in program order. -/

structure Shard where
  name : String
  uploadAgent : String
deriving Repr, DecidableEq

/-- `fmt.Sprintf("achgateway/rdfi/%s", shardName)` (scheduler.go:130). -/
def leaderKey (shardName : String) : String :=
  "achgateway/rdfi/" ++ shardName

inductive SchedEvent where
  | findFailed (shardName : String)
  | acquireAttempt (key : String)
  | acquireFailed (key : String) (err : String)
  | tickRun (shard : Shard) (result : Option String)
  | alert (err : String)
deriving Repr, DecidableEq

/-- One iteration of the `tickAll` loop body (scheduler.go:118-148) for a
single configured shard name. -/
def tickOne (find : String → Option Shard) (acquire : String → Except String Unit)
    (tick : Shard → Option String) (shardName : String) : List SchedEvent :=
  match find shardName with
  | none => [.findFailed shardName]
  | some shard =>
    let key := leaderKey shardName
    SchedEvent.acquireAttempt key ::
      (match acquire key with
       | .error e => [.acquireFailed key e]
       | .ok _ =>
         match tick shard with
         | some e => [.tickRun shard (some e), .alert e]
         | none => [.tickRun shard none])

/-- The trace of a full `tickAll` pass over the configured shard names,
in configuration order. -/
def tickAllTrace (find : String → Option Shard)
    (acquire : String → Except String Unit) (tick : Shard → Option String) :
    List String → List SchedEvent
  | [] => []
  | n :: rest =>
      tickOne find acquire tick n ++ tickAllTrace find acquire tick rest

/-- `PeriodicScheduler.tickAll` (scheduler.go:117-150): the produced trace
together with the returned error value, which the source returns as `nil`
on the single return path. -/
def tickAll (find : String → Option Shard)
    (acquire : String → Except String Unit) (tick : Shard → Option String)
    (shardNames : List String) : List SchedEvent × Option String :=
  (tickAllTrace find acquire tick shardNames, none)

/-- Lock keys attempted in a trace, in order. -/
def keysAttempted (trace : List SchedEvent) : List String :=
  trace.filterMap (fun e =>
    match e with
    | .acquireAttempt k => some k
    | _ => none)

/-! ### Cleanup policy (scheduler.go:176-190)

`tick` gates `Cleanup` on `!KeepRemoteFiles` and `CleanupEmptyFiles` on
`RemoveZeroByteFiles`. The bodies of `Cleanup` and `CleanupEmptyFiles`
are not part of the provided sources; they are modelled from the spec. -/

structure ODFIStorage where
  keepRemoteFiles : Bool
  removeZeroByteFiles : Bool
  cleanupLocalDirectory : Bool
deriving Repr, DecidableEq

/-- A file retrieved this tick: its remote path and downloaded local size. -/
structure DownloadedFile where
  remotePath : String
  localSize : Nat
deriving Repr, DecidableEq

/-- Modelled from the spec: `Cleanup` deletes every remote file that was
downloaded this tick (by remote path recorded in the bundle); its body is
not under the provided sources. -/
def cleanupDeletes (files : List DownloadedFile) : List String :=
  files.map (fun f => f.remotePath)

/-- Modelled from the spec: `CleanupEmptyFiles` deletes remote files whose
downloaded local size is zero; its body is not under the provided sources. -/
def cleanupEmptyDeletes (files : List DownloadedFile) : List String :=
  (files.filter (fun f => f.localSize == 0)).map (fun f => f.remotePath)

/-- The remote deletes one `tick` issues when the cleanup calls succeed,
following the gating in scheduler.go:176-186: `Cleanup` only when
`KeepRemoteFiles` is false, then `CleanupEmptyFiles` whenever
`RemoveZeroByteFiles` is true. -/
def tickRemoteDeletes (storage : ODFIStorage) (files : List DownloadedFile) :
    List String :=
  (if !storage.keepRemoteFiles then cleanupDeletes files else []) ++
  (if storage.removeZeroByteFiles then cleanupEmptyDeletes files else [])

/-! ### api_files.go: `CreateFileHandler`

The collaborators (ACH codec, compliance transform, publisher)
are abstracted as function parameters; the handler's branching is the
source's. Bytes are modelled as `List Nat`. -/

/-- Payload of the published "ACH file" event (`incoming.ACHFile`). -/
structure IncomingACHFile where
  fileID : String
  shardKey : String
  file : ACHFile
deriving Repr, DecidableEq

/-- A pubsub message: body bytes and metadata pairs. -/
structure PubMessage where
  body : List Nat
  metadata : List (String × String)
deriving Repr, DecidableEq

/-- HTTP status written plus the messages handed to the publisher. -/
structure CreateFileOutcome where
  status : Nat
  sent : List PubMessage
deriving Repr, DecidableEq

/-- The parse fallback of `CreateFileHandler` (api_files.go:84-93): try
the ACH wire reader; on error try `ach.FileFromJSON`, accepting its
result only when the file is non-nil and the error nil. -/
def parseACH (wireRead : List Nat → Except String ACHFile)
    (fileFromJSON : List Nat → Option ACHFile × Option String)
    (bs : List Nat) : Option ACHFile :=
  match wireRead bs with
  | .ok f => some f
  | .error _ =>
    match fileFromJSON bs with
    | (some f, none) => some f
    | _ => none

/-- `FilesController.publishFile` (api_files.go:123-143): protect the
event, then send it with metadata `fileID` and `shardKey`; returns the
messages handed to the publisher and the error result. -/
def publishFile (protect : IncomingACHFile → Except String (List Nat))
    (send : PubMessage → Except String Unit)
    (shardKey fileID : String) (file : ACHFile) :
    List PubMessage × Except String Unit :=
  match protect ⟨fileID, shardKey, file⟩ with
  | .error e => ([], .error ("unable to protect incoming file event: " ++ e))
  | .ok bs =>
    let msg : PubMessage := ⟨bs, [("fileID", fileID), ("shardKey", shardKey)]⟩
    ([msg], send msg)

/-- `FilesController.CreateFileHandler` (api_files.go:69-106). `body` is
the outcome of `readBody` (read + compliance reveal). -/
def createFileHandler (wireRead : List Nat → Except String ACHFile)
    (fileFromJSON : List Nat → Option ACHFile × Option String)
    (protect : IncomingACHFile → Except String (List Nat))
    (send : PubMessage → Except String Unit)
    (shardKey fileID : String) (body : Except String (List Nat)) :
    CreateFileOutcome :=
  if shardKey = "" ∨ fileID = "" then ⟨400, []⟩
  else
    match body with
    | .error _ => ⟨400, []⟩
    | .ok bs =>
      match parseACH wireRead fileFromJSON bs with
      | none => ⟨400, []⟩
      | some file =>
        match publishFile protect send shardKey fileID file with
        | (sent, .error _) => ⟨500, sent⟩
        | (sent, .ok _) => ⟨200, sent⟩

/-! ### Helper lemmas -/

/-- Any event of one shard's loop body occurs in the full `tickAll` trace
whenever that shard name is configured. -/
theorem mem_tickAllTrace_of_mem_tickOne (find : String → Option Shard)
    (acquire : String → Except String Unit) (tick : Shard → Option String)
    {n : String} {names : List String} (hn : n ∈ names) {ev : SchedEvent}
    (hev : ev ∈ tickOne find acquire tick n) :
    ev ∈ tickAllTrace find acquire tick names := by
  induction names with
  | nil => cases hn
  | cons m rest ih =>
    rcases List.mem_cons.mp hn with h | h
    · subst h
      exact List.mem_append_left _ hev
    · exact List.mem_append_right _ (ih h)

/-- Each loop body records either the failed shard lookup or the
leadership attempt for that shard's key. -/
theorem tickOne_attempt (find : String → Option Shard)
    (acquire : String → Except String Unit) (tick : Shard → Option String)
    (n : String) :
    SchedEvent.findFailed n ∈ tickOne find acquire tick n ∨
    SchedEvent.acquireAttempt (leaderKey n) ∈ tickOne find acquire tick n := by
  unfold tickOne
  cases find n with
  | none => exact Or.inl (List.mem_singleton.mpr rfl)
  | some shard => exact Or.inr (List.mem_cons_self _ _)

/-- When the shard resolves, the lock is acquired and the tick errors, the
loop body records the alert. -/
theorem tickOne_alert (find : String → Option Shard)
    (acquire : String → Except String Unit) (tick : Shard → Option String)
    (n : String) (shard : Shard) (e : String) (hf : find n = some shard)
    (ha : acquire (leaderKey n) = Except.ok ())
    (ht : tick shard = some e) :
    SchedEvent.alert e ∈ tickOne find acquire tick n := by
  simp [tickOne, hf, ha, ht]

/-- The loop body for shard name `n` only ever attempts the key
`leaderKey n`. -/
theorem keysAttempted_tickOne (find : String → Option Shard)
    (acquire : String → Except String Unit) (tick : Shard → Option String)
    (n : String) :
    ∀ k ∈ keysAttempted (tickOne find acquire tick n), k = leaderKey n := by
  intro k hk
  cases hf : find n with
  | none => simp [tickOne, hf, keysAttempted] at hk
  | some shard =>
    cases ha : acquire (leaderKey n) with
    | error e =>
      simp [tickOne, hf, ha, keysAttempted] at hk
      exact hk
    | ok u =>
      cases ht : tick shard with
      | none =>
        simp [tickOne, hf, ha, ht, keysAttempted] at hk
        exact hk
      | some e =>
        simp [tickOne, hf, ha, ht, keysAttempted] at hk
        exact hk

/-- The surviving-batch list built by the reconciliation handler is
non-empty exactly when some input batch has entries, and every surviving
batch has entries. -/
theorem recons_facts (l : List Batch) :
    (l.filterMap reconsKeep ≠ [] ↔ ∃ b ∈ l, b.entries ≠ []) ∧
    ∀ b ∈ l.filterMap reconsKeep, b.entries ≠ [] := by
  induction l with
  | nil => simp
  | cons a t ih =>
    by_cases h : a.entries = []
    · have hka : reconsKeep a = none := by simp [reconsKeep, h]
      constructor
      · simp only [List.filterMap_cons, hka]
        rw [ih.1]
        simp [h]
      · intro b hb
        simp only [List.filterMap_cons, hka] at hb
        exact ih.2 b hb
    · have hpos : a.entries.length > 0 := List.length_pos.mpr h
      have hka : reconsKeep a =
          some { header := a.header, entries := a.entries } := by
        simp [reconsKeep, hpos]
      constructor
      · simp only [List.filterMap_cons, hka]
        constructor
        · intro _
          exact ⟨a, List.mem_cons_self a t, h⟩
        · intro _
          exact List.cons_ne_nil _ _
      · intro b hb
        simp only [List.filterMap_cons, hka] at hb
        rcases List.mem_cons.mp hb with rfl | hb2
        · exact h
        · exact ih.2 b hb2

/-! ### Claims -/

/-- C1: the claim says `CorrectionEmitter.Handle` emits a CorrectionFile
event iff the file has at least one NotificationOfChange batch. The
source classifier `len(file.ACHFile.NotificationOfChange) >= 0`
(corrections.go:63) accepts every parsed file, so a parsed file with zero
NoC batches and a passing path matcher still emits an event (while
indeed incrementing no counter): the code contradicts the intended
classifier the spec flags (`> 0`). -/
theorem c1_zero_noc_file_still_emits :
    isCorrectionFile ⟨"/corrections/a.ach", some ⟨"o", "d", [], []⟩⟩ =
      BoolOrPanic.val true ∧
    (correctionHandle ⟨true, ""⟩
      ⟨"/corrections/a.ach", some ⟨"o", "d", [], []⟩⟩).events.length = 1 ∧
    (correctionHandle ⟨true, ""⟩
      ⟨"/corrections/a.ach", some ⟨"o", "d", [], []⟩⟩).counters = [] := by
  decide

/-- C2: the claim says every registered processor's Handle nil-guards the
parsed document. The correction processor instead reaches a nil-pointer
dereference: `isCorrectionFile` reads `file.ACHFile.NotificationOfChange`
before any nil check (corrections.go:62-67), so a File with a nil parsed
document faults. The reconciliation processor does guard (returning the
error "nil ach.File"). -/
theorem c2_nil_achfile_nil_deref :
    isCorrectionFile ⟨"/corrections/a.ach", none⟩ = BoolOrPanic.nilDeref ∧
    (correctionHandle ⟨true, ""⟩ ⟨"/corrections/a.ach", none⟩).outcome =
      HandleOutcome.nilPanic ∧
    (creditReconciliationHandle ⟨true, "/reconciliation/"⟩
      ⟨"/reconciliation/a.ach", none⟩).outcome =
      HandleOutcome.err "nil ach.File" := by
  decide

/-- C4 counterexample: with `keep_remote_files = true` and
`remove_zero_byte_files = true`, a tick over a zero-byte downloaded file
does invoke a remote delete, so "no remote delete is invoked ...
regardless of remove_zero_byte_files" is false. -/
theorem c4_counterexample :
    (ODFIStorage.mk true true false).keepRemoteFiles = true ∧
    tickRemoteDeletes ⟨true, true, false⟩ [⟨"inbound/zero.ach", 0⟩] ≠ [] := by
  decide

/-- C4 (amended): with `keep_remote_files = true` the remote deletes of a
tick are exactly the zero-byte deletes when `remove_zero_byte_files` is
set and none otherwise; in particular every deleted path belongs to a
downloaded file of local size zero. -/
theorem c4_keep_remote_files_amended (storage : ODFIStorage)
    (files : List DownloadedFile) (h : storage.keepRemoteFiles = true) :
    tickRemoteDeletes storage files =
      (if storage.removeZeroByteFiles then cleanupEmptyDeletes files else []) ∧
    ∀ p ∈ tickRemoteDeletes storage files,
      ∃ f ∈ files, f.remotePath = p ∧ f.localSize = 0 := by
  have heq : tickRemoteDeletes storage files =
      (if storage.removeZeroByteFiles then cleanupEmptyDeletes files
       else []) := by
    simp [tickRemoteDeletes, h]
  refine ⟨heq, ?_⟩
  intro p hp
  rw [heq] at hp
  split at hp
  · simp only [cleanupEmptyDeletes, List.mem_map, List.mem_filter] at hp
    obtain ⟨f, ⟨hf, hz⟩, hpath⟩ := hp
    exact ⟨f, hf, hpath, by simpa using hz⟩
  · cases hp

theorem c4_amended_witness :
    (ODFIStorage.mk true true false).keepRemoteFiles = true ∧
    tickRemoteDeletes ⟨true, true, false⟩ [⟨"z.ach", 0⟩] =
      (if (ODFIStorage.mk true true false).removeZeroByteFiles
       then cleanupEmptyDeletes [⟨"z.ach", 0⟩] else []) :=
  ⟨rfl, (c4_keep_remote_files_amended ⟨true, true, false⟩ [⟨"z.ach", 0⟩] rfl).1⟩

/-- C5 counterexample: a File with a nil parsed document whose path the
reconciliation classifier does not recognize still makes
`creditReconciliation.Handle` return an error (the nil guard fires
before the classifier), not ok as the claim states. -/
theorem c5_counterexample :
    isReconciliationFile ⟨true, "/reconciliation/"⟩ ⟨"/other/x.ach", none⟩ =
      false ∧
    (creditReconciliationHandle ⟨true, "/reconciliation/"⟩
      ⟨"/other/x.ach", none⟩).outcome ≠ HandleOutcome.ok := by
  decide

/-- C5 (amended): for a File whose parsed document is non-nil, an
unrecognized file is skipped with an ok return and no event and no
counter: for the correction processor "unrecognized" means the
configured path matcher misses (its batch classifier accepts all parsed
files), for the reconciliation processor it is `isReconciliationFile`
failing. A nil parsed document instead produces an error (reconciliation)
or a nil dereference (correction). -/
theorem c5_unrecognized_parsed_file_skipped (ccfg : ODFICorrections)
    (rcfg : ODFIReconciliation) (file : File) (f : ACHFile)
    (h : file.achFile = some f) :
    (pathMatcherHit file.filepath ccfg.pathMatcher = false →
      ccfg.pathMatcher ≠ "" →
      correctionHandle ccfg file = ⟨.ok, [], []⟩) ∧
    (isReconciliationFile rcfg file = false →
      creditReconciliationHandle rcfg file = ⟨.ok, [], []⟩) := by
  constructor
  · intro hm hne
    simp [correctionHandle, isCorrectionFile, h, hm, hne]
  · intro hrec
    simp [creditReconciliationHandle, h, hrec]

theorem c5_amended_witness :
    (File.mk "/other/x.ach" (some ⟨"o", "d", [], []⟩)).achFile =
      some ⟨"o", "d", [], []⟩ ∧
    pathMatcherHit "/other/x.ach" "/corrections/" = false ∧
    "/corrections/" ≠ "" ∧
    isReconciliationFile ⟨true, "/reconciliation/"⟩
      ⟨"/other/x.ach", some ⟨"o", "d", [], []⟩⟩ = false ∧
    correctionHandle ⟨true, "/corrections/"⟩
      ⟨"/other/x.ach", some ⟨"o", "d", [], []⟩⟩ = ⟨.ok, [], []⟩ ∧
    creditReconciliationHandle ⟨true, "/reconciliation/"⟩
      ⟨"/other/x.ach", some ⟨"o", "d", [], []⟩⟩ = ⟨.ok, [], []⟩ :=
  ⟨rfl, by decide, by decide, by decide,
   (c5_unrecognized_parsed_file_skipped ⟨true, "/corrections/"⟩
     ⟨true, "/reconciliation/"⟩ ⟨"/other/x.ach", some ⟨"o", "d", [], []⟩⟩
     ⟨"o", "d", [], []⟩ rfl).1 (by decide) (by decide),
   (c5_unrecognized_parsed_file_skipped ⟨true, "/corrections/"⟩
     ⟨true, "/reconciliation/"⟩ ⟨"/other/x.ach", some ⟨"o", "d", [], []⟩⟩
     ⟨"o", "d", [], []⟩ rfl).2 (by decide)⟩

/-- C6 counterexample: the filter lowercases only the path, never the
matcher (corrections.go:72, reconciliation source line 66), so changing
the matcher's case changes the result: the lowercase matcher hits the
uppercase path while the uppercase matcher misses the very same path. -/
theorem c6_counterexample :
    pathMatcherHit "/RECONCILIATION/x" "/reconciliation/" = true ∧
    pathMatcherHit "/RECONCILIATION/x" "/RECONCILIATION/" = false := by
  decide

/-- C6 (amended): the filter matches iff the matcher occurs verbatim in
the lowercased path. It is insensitive to the case of the path (any two
paths with equal lowercasings agree) but sensitive to the case of the
matcher; `isReconciliationFile` applies exactly this filter. -/
theorem c6_path_matcher_lowercases_path_only (p q m : String)
    (h : stringsToLower p = stringsToLower q) :
    pathMatcherHit p m = pathMatcherHit q m ∧
    pathMatcherHit p m = stringsContains (stringsToLower p) m ∧
    (∀ cfg file, isReconciliationFile cfg file =
      (cfg.enabled && (cfg.pathMatcher != "" &&
        pathMatcherHit file.filepath cfg.pathMatcher))) := by
  refine ⟨?_, rfl, ?_⟩
  · unfold pathMatcherHit
    rw [h]
  · intro cfg file
    rcases cfg with ⟨e, m'⟩
    cases e <;> simp [isReconciliationFile]

theorem c6_amended_witness :
    stringsToLower "/Reconciliation/F.TXT" =
      stringsToLower "/reconciliation/f.txt" ∧
    pathMatcherHit "/Reconciliation/F.TXT" "/reconciliation/" =
      pathMatcherHit "/reconciliation/f.txt" "/reconciliation/" :=
  ⟨by decide,
   (c6_path_matcher_lowercases_path_only "/Reconciliation/F.TXT"
     "/reconciliation/f.txt" "/reconciliation/" (by decide)).1⟩

/-- C3: `tickAll` returns nil for every configuration and outcome; every
configured shard name is attempted (its lookup failure or its leadership
attempt appears in the trace) regardless of what happens to the other
shards; and a shard whose tick errors has that error reported to the
alerters. -/
theorem c3_tickAll_returns_nil_and_attempts_all_shards
    (find : String → Option Shard) (acquire : String → Except String Unit)
    (tick : Shard → Option String) (shardNames : List String) :
    (tickAll find acquire tick shardNames).2 = none ∧
    (∀ n ∈ shardNames,
      SchedEvent.findFailed n ∈ (tickAll find acquire tick shardNames).1 ∨
      SchedEvent.acquireAttempt (leaderKey n) ∈
        (tickAll find acquire tick shardNames).1) ∧
    (∀ n ∈ shardNames, ∀ shard e, find n = some shard →
      acquire (leaderKey n) = Except.ok () → tick shard = some e →
      SchedEvent.alert e ∈ (tickAll find acquire tick shardNames).1) := by
  refine ⟨rfl, ?_, ?_⟩
  · intro n hn
    rcases tickOne_attempt find acquire tick n with h | h
    · exact Or.inl (mem_tickAllTrace_of_mem_tickOne find acquire tick hn h)
    · exact Or.inr (mem_tickAllTrace_of_mem_tickOne find acquire tick hn h)
  · intro n hn shard e hf ha ht
    exact mem_tickAllTrace_of_mem_tickOne find acquire tick hn
      (tickOne_alert find acquire tick n shard e hf ha ht)

theorem c3_tickAll_witness :
    (tickAll (fun _ => some ⟨"s1", "agent"⟩) (fun _ => Except.ok ())
      (fun _ => some "boom") ["s1"]).2 = none ∧
    SchedEvent.alert "boom" ∈
      (tickAll (fun _ => some ⟨"s1", "agent"⟩) (fun _ => Except.ok ())
        (fun _ => some "boom") ["s1"]).1 :=
  ⟨(c3_tickAll_returns_nil_and_attempts_all_shards
      (fun _ => some ⟨"s1", "agent"⟩) (fun _ => Except.ok ())
      (fun _ => some "boom") ["s1"]).1,
   (c3_tickAll_returns_nil_and_attempts_all_shards
      (fun _ => some ⟨"s1", "agent"⟩) (fun _ => Except.ok ())
      (fun _ => some "boom") ["s1"]).2.2 "s1" (by decide)
      ⟨"s1", "agent"⟩ "boom" rfl rfl rfl⟩

/-- C7: `isReconciliationFile` holds iff the config is enabled, the
matcher is non-empty and the (lowercased) path contains the matcher; and
whenever this classifier fails, `creditReconciliation.Handle` emits no
event and increments no counter. -/
theorem c7_reconciliation_classifier (cfg : ODFIReconciliation)
    (file : File) :
    (isReconciliationFile cfg file = true ↔
      (cfg.enabled = true ∧ cfg.pathMatcher ≠ "" ∧
        pathMatcherHit file.filepath cfg.pathMatcher = true)) ∧
    (isReconciliationFile cfg file = false →
      (creditReconciliationHandle cfg file).events = [] ∧
      (creditReconciliationHandle cfg file).counters = []) := by
  constructor
  · rcases cfg with ⟨e, m⟩
    cases e <;> simp [isReconciliationFile, and_assoc]
  · intro hrec
    cases hach : file.achFile with
    | none => simp [creditReconciliationHandle, hach]
    | some f => simp [creditReconciliationHandle, hach, hrec]

theorem c7_witness :
    isReconciliationFile ⟨true, "/reconciliation/"⟩
      ⟨"/other/x", some ⟨"o", "d", [], []⟩⟩ = false ∧
    (creditReconciliationHandle ⟨true, "/reconciliation/"⟩
      ⟨"/other/x", some ⟨"o", "d", [], []⟩⟩).events = [] ∧
    (creditReconciliationHandle ⟨true, "/reconciliation/"⟩
      ⟨"/other/x", some ⟨"o", "d", [], []⟩⟩).counters = [] :=
  ⟨by decide,
   (c7_reconciliation_classifier ⟨true, "/reconciliation/"⟩
     ⟨"/other/x", some ⟨"o", "d", [], []⟩⟩).2 (by decide)⟩

/-- C9: a tick for a shard runs only after the lock on exactly the key
`"achgateway/rdfi/" ++ shardName` was acquired, that key is the sole key
attempted in that shard's loop body, and every key attempted anywhere in
a `tickAll` trace is the leader key of one of the configured shard
names. -/
theorem c9_leader_key_sole_lock (find : String → Option Shard)
    (acquire : String → Except String Unit) (tick : Shard → Option String) :
    (∀ n shard r, SchedEvent.tickRun shard r ∈ tickOne find acquire tick n →
      acquire (leaderKey n) = Except.ok () ∧
      keysAttempted (tickOne find acquire tick n) = [leaderKey n] ∧
      leaderKey n = "achgateway/rdfi/" ++ n) ∧
    (∀ names k, k ∈ keysAttempted (tickAllTrace find acquire tick names) →
      ∃ n ∈ names, k = leaderKey n) := by
  constructor
  · intro n shard r hrun
    cases hf : find n with
    | none => simp [tickOne, hf] at hrun
    | some shard2 =>
      cases ha : acquire (leaderKey n) with
      | error e => simp [tickOne, hf, ha] at hrun
      | ok u =>
        cases u
        refine ⟨rfl, ?_, rfl⟩
        cases ht : tick shard2 with
        | none => simp [tickOne, hf, ha, ht, keysAttempted]
        | some e => simp [tickOne, hf, ha, ht, keysAttempted]
  · intro names k hk
    induction names with
    | nil => simp [tickAllTrace, keysAttempted] at hk
    | cons m rest ih =>
      rw [show tickAllTrace find acquire tick (m :: rest) =
          tickOne find acquire tick m ++ tickAllTrace find acquire tick rest
          from rfl,
        keysAttempted, List.filterMap_append] at hk
      rcases List.mem_append.mp hk with h | h
      · exact ⟨m, List.mem_cons_self m rest,
          keysAttempted_tickOne find acquire tick m k h⟩
      · obtain ⟨n, hn, hkey⟩ := ih h
        exact ⟨n, List.mem_cons_of_mem m hn, hkey⟩

theorem c9_leader_key_witness :
    keysAttempted (tickOne (fun _ => some ⟨"s1", "a"⟩)
      (fun _ => Except.ok ()) (fun _ => none) "s1") =
      ["achgateway/rdfi/s1"] := by
  have h := (c9_leader_key_sole_lock (fun _ => some ⟨"s1", "a"⟩)
    (fun _ => Except.ok ()) (fun _ => none)).1 "s1" ⟨"s1", "a"⟩ none
    (by decide)
  rw [h.2.1, h.2.2]
  decide

/-- C10: for a recognized reconciliation file with a parsed document, the
counter is incremented exactly once whether or not an event goes out, an
event is emitted iff some batch has at least one entry, and every batch
inside the emitted event's Reconciliations list has at least one entry
(empty batches are omitted). -/
theorem c10_reconciliation_emission (cfg : ODFIReconciliation) (file : File)
    (f : ACHFile) (hach : file.achFile = some f)
    (hrec : isReconciliationFile cfg file = true) :
    (creditReconciliationHandle cfg file).counters =
      [(f.immediateOrigin, f.immediateDestination)] ∧
    ((creditReconciliationHandle cfg file).events ≠ [] ↔
      ∃ b ∈ f.batches, b.entries ≠ []) ∧
    (∀ ev ∈ (creditReconciliationHandle cfg file).events,
      ∀ b ∈ ev.reconciliations, b.entries ≠ []) := by
  have hout : creditReconciliationHandle cfg file =
      ⟨.ok,
       if (f.batches.filterMap reconsKeep).length > 0 then
         [{ filename := filepathBase file.filepath, file := f,
            reconciliations := f.batches.filterMap reconsKeep }]
       else [],
       [(f.immediateOrigin, f.immediateDestination)]⟩ := by
    simp [creditReconciliationHandle, hach, hrec]
  rw [hout]
  refine ⟨rfl, ?_, ?_⟩
  · rw [← (recons_facts f.batches).1]
    by_cases hlen : (f.batches.filterMap reconsKeep).length > 0
    · simp [hlen, List.length_pos.mp hlen]
    · have hnil : f.batches.filterMap reconsKeep = [] :=
        List.length_eq_zero.mp (Nat.eq_zero_of_not_pos hlen)
      simp [hlen, hnil]
  · intro ev hev b hb
    split at hev
    · rcases List.mem_singleton.mp hev with rfl
      exact (recons_facts f.batches).2 b hb
    · cases hev

theorem c10_witness :
    (File.mk "/reconciliation/f.txt"
      (some ⟨"o", "d", [], [⟨"b1", []⟩, ⟨"b2", [⟨"t1", none⟩]⟩]⟩)).achFile =
      some ⟨"o", "d", [], [⟨"b1", []⟩, ⟨"b2", [⟨"t1", none⟩]⟩]⟩ ∧
    isReconciliationFile ⟨true, "/reconciliation/"⟩
      ⟨"/reconciliation/f.txt",
       some ⟨"o", "d", [], [⟨"b1", []⟩, ⟨"b2", [⟨"t1", none⟩]⟩]⟩⟩ = true ∧
    (creditReconciliationHandle ⟨true, "/reconciliation/"⟩
      ⟨"/reconciliation/f.txt",
       some ⟨"o", "d", [], [⟨"b1", []⟩, ⟨"b2", [⟨"t1", none⟩]⟩]⟩⟩).counters =
      [("o", "d")] :=
  ⟨rfl, by decide,
   (c10_reconciliation_emission ⟨true, "/reconciliation/"⟩
     ⟨"/reconciliation/f.txt",
      some ⟨"o", "d", [], [⟨"b1", []⟩, ⟨"b2", [⟨"t1", none⟩]⟩]⟩⟩
     ⟨"o", "d", [], [⟨"b1", []⟩, ⟨"b2", [⟨"t1", none⟩]⟩]⟩ rfl (by decide)).1⟩

/-- C8: the create-file handler responds 400 and publishes nothing on an
empty shardKey or fileID, an unreadable body, or a body that is neither
valid ACH wire format nor valid ACH-JSON; it responds 500 when
publishing fails; otherwise it responds 200 having handed the publisher
exactly one message whose metadata carries the fileID and the shardKey. -/
theorem c8_create_file_handler_spec
    (wireRead : List Nat → Except String ACHFile)
    (fileFromJSON : List Nat → Option ACHFile × Option String)
    (protect : IncomingACHFile → Except String (List Nat))
    (send : PubMessage → Except String Unit)
    (shardKey fileID : String) (body : Except String (List Nat)) :
    ((shardKey = "" ∨ fileID = "") →
      createFileHandler wireRead fileFromJSON protect send shardKey fileID
        body = ⟨400, []⟩) ∧
    (shardKey ≠ "" → fileID ≠ "" →
      ((∀ e, body = Except.error e →
        createFileHandler wireRead fileFromJSON protect send shardKey fileID
          body = ⟨400, []⟩) ∧
       (∀ bs, body = Except.ok bs →
        parseACH wireRead fileFromJSON bs = none →
        createFileHandler wireRead fileFromJSON protect send shardKey fileID
          body = ⟨400, []⟩) ∧
       (∀ bs f, body = Except.ok bs →
        parseACH wireRead fileFromJSON bs = some f →
        ((∀ m ∈ (publishFile protect send shardKey fileID f).1,
            ("fileID", fileID) ∈ m.metadata ∧
            ("shardKey", shardKey) ∈ m.metadata) ∧
         (∀ e, (publishFile protect send shardKey fileID f).2 =
            Except.error e →
          (createFileHandler wireRead fileFromJSON protect send shardKey
            fileID body).status = 500) ∧
         ((publishFile protect send shardKey fileID f).2 = Except.ok () →
          createFileHandler wireRead fileFromJSON protect send shardKey
            fileID body =
            ⟨200, (publishFile protect send shardKey fileID f).1⟩))))) := by
  have hvars : ∀ h : shardKey = "" ∨ fileID = "",
      createFileHandler wireRead fileFromJSON protect send shardKey fileID
        body = ⟨400, []⟩ := by
    intro h
    simp [createFileHandler, h]
  refine ⟨hvars, ?_⟩
  intro hs hfid
  have hcond : ¬ (shardKey = "" ∨ fileID = "") := by
    intro h
    rcases h with h | h
    · exact hs h
    · exact hfid h
  refine ⟨?_, ?_, ?_⟩
  · intro e hbody
    simp [createFileHandler, hcond, hbody]
  · intro bs hbody hparse
    simp [createFileHandler, hcond, hbody, hparse]
  · intro bs f hbody hparse
    refine ⟨?_, ?_, ?_⟩
    · intro m hm
      cases hp : protect ⟨fileID, shardKey, f⟩ with
      | error e => simp [publishFile, hp] at hm
      | ok bs2 =>
        simp [publishFile, hp] at hm
        subst hm
        simp
    · intro e hpub
      rcases hfull : publishFile protect send shardKey fileID f with ⟨sent, res⟩
      rw [hfull] at hpub
      simp only at hpub
      subst hpub
      simp [createFileHandler, hcond, hbody, hparse, hfull]
    · intro hpub
      rcases hfull : publishFile protect send shardKey fileID f with ⟨sent, res⟩
      rw [hfull] at hpub
      simp only at hpub
      subst hpub
      simp [createFileHandler, hcond, hbody, hparse, hfull]

theorem c8_witness :
    createFileHandler (fun _ => Except.error "wire")
      (fun _ => (none, none)) (fun _ => Except.ok [7])
      (fun _ => Except.ok ()) "" "f1" (Except.ok [1]) = ⟨400, []⟩ ∧
    createFileHandler (fun _ => Except.ok ⟨"o", "d", [], []⟩)
      (fun _ => (none, none)) (fun _ => Except.ok [7])
      (fun _ => Except.ok ()) "s1" "f1" (Except.ok [1]) =
      ⟨200, [⟨[7], [("fileID", "f1"), ("shardKey", "s1")]⟩]⟩ ∧
    (createFileHandler (fun _ => Except.ok ⟨"o", "d", [], []⟩)
      (fun _ => (none, none)) (fun _ => Except.ok [7])
      (fun _ => Except.error "pub") "s1" "f1" (Except.ok [1])).status =
      500 :=
  ⟨(c8_create_file_handler_spec (fun _ => Except.error "wire")
      (fun _ => (none, none)) (fun _ => Except.ok [7])
      (fun _ => Except.ok ()) "" "f1" (Except.ok [1])).1 (Or.inl rfl),
   ((c8_create_file_handler_spec (fun _ => Except.ok ⟨"o", "d", [], []⟩)
      (fun _ => (none, none)) (fun _ => Except.ok [7])
      (fun _ => Except.ok ()) "s1" "f1" (Except.ok [1])).2 (by decide)
      (by decide)).2.2 [1] ⟨"o", "d", [], []⟩ rfl rfl |>.2.2 rfl,
   ((c8_create_file_handler_spec (fun _ => Except.ok ⟨"o", "d", [], []⟩)
      (fun _ => (none, none)) (fun _ => Except.ok [7])
      (fun _ => Except.error "pub") "s1" "f1" (Except.ok [1])).2 (by decide)
      (by decide)).2.2 [1] ⟨"o", "d", [], []⟩ rfl rfl |>.2.1 "pub" rfl⟩

end AchGateway
